import Mathlib

/-!
Verification of the Blossom handler-evaluation pipeline
(`scripts/evaluate_handler.py`) and the challenge retry controller
(`scripts/run_challenge.py`), via a shallow embedding in Lean.

Effectful boundaries (file I/O, the model backend, the sandbox and
functional-test subprocesses) are passed in as explicit parameters: the
embedding models what the driver does with each possible outcome of
those calls, faithfully to the Python control flow.
-/

namespace Blossom

/-! ### String primitives

The scoring code uses Python's `in` (substring test), `str.split`,
`str.strip` and `int(...)`.  We mirror these as structurally recursive
functions on `List Char` so that every theorem below can be evaluated by
the kernel.  `strip`/`int` are modelled on ASCII whitespace and on
optionally-signed decimal digit strings (Python's digit-grouping
underscores are not modelled; no input in this development uses them). -/

/-- Python `needle in hay` (substring containment). -/
def containsSub (needle : List Char) : List Char → Bool
  | [] => needle.isEmpty
  | c :: rest => needle.isPrefixOf (c :: rest) || containsSub needle rest

/-- Python `s.split(sep)` for a one-character separator: splits on every
occurrence, keeping empty pieces (`"".split(c) = [""]`). -/
def splitOnChar (sep : Char) : List Char → List (List Char)
  | [] => [[]]
  | c :: rest =>
    match splitOnChar sep rest with
    | [] => if c = sep then [[], []] else [[c]]
    | piece :: pieces =>
      if c = sep then [] :: piece :: pieces else (c :: piece) :: pieces

/-- Python `s.strip()`: drop whitespace from both ends. -/
def stripChars (l : List Char) : List Char :=
  ((l.dropWhile Char.isWhitespace).reverse.dropWhile Char.isWhitespace).reverse

/-- Accumulating decimal parser: `none` on any non-digit character. -/
def parseDigitsAux (acc : Nat) : List Char → Option Nat
  | [] => some acc
  | c :: rest =>
    if c.isDigit then parseDigitsAux (acc * 10 + (c.toNat - '0'.toNat)) rest
    else none

/-- Parse a nonempty string of decimal digits (`int` rejects `""`). -/
def parseDigits : List Char → Option Nat
  | [] => none
  | c :: rest => parseDigitsAux 0 (c :: rest)

/-- Python `int(s)` on an already-stripped string: optional sign, then a
nonempty run of decimal digits; `none` models the raised `ValueError`. -/
def parsePyInt : List Char → Option Int
  | '-' :: rest => (parseDigits rest).map (fun n => -(n : Int))
  | '+' :: rest => (parseDigits rest).map (fun n => (n : Int))
  | l => (parseDigits l).map (fun n => (n : Int))

/-! ### Functional-test output parsing (`HandlerEvaluator._test_functionality`)

After the child process completes, the parent does:

    if 'SCORE:' in output:
        score_line = [l for l in output.split('\n') if 'SCORE:' in l][0]
        score = int(score_line.split(':')[1].strip())
        final_score = min(score, 50)  # Cap at 50 points
        return final_score
    else:
        return 0

with every exception (including a failed `int(...)`) caught and turned
into `return 0`. -/

/-- The fallible part of the parse: find the first stdout line containing
`SCORE:`, split it on `:`, take piece 1, strip it, parse it as an int.
`none` models both "no SCORE line" and a raised exception. -/
def extractScore (output : String) : Option Int :=
  let chars := output.data
  if containsSub "SCORE:".data chars then
    match (splitOnChar '\n' chars).filter (fun l => containsSub "SCORE:".data l) with
    | [] => none
    | line :: _ =>
      match (splitOnChar ':' line).get? 1 with
      | none => none
      | some piece => parsePyInt (stripChars piece)
  else none

/-- The value `_test_functionality` returns when the child completed with
stdout `output`: the parsed score capped at 50 (`min(score, 50)`), or 0
when no score could be parsed. -/
def scoreFromOutput (output : String) : Int :=
  match extractScore output with
  | some n => min n 50
  | none => 0

/-- Outcome of the functional-test child process, as seen by the parent. -/
inductive FuncOutcome
  | completed (stdout : String)
  | timeout
  | err
deriving DecidableEq

/-- Process-level actions the parent performs during `_test_functionality`;
used to state what happens to the child on each exit path. -/
inductive ProcAction
  | spawnChild
  | killChild
  | removeTempFile
deriving DecidableEq

/-- `HandlerEvaluator._test_functionality`, given the child's outcome:
the returned functional score together with the process actions taken.
On completion the stdout is parsed and capped; on `asyncio.TimeoutError`
the handler only logs and falls through to `return 0` — it never calls
`kill()`/`terminate()` on the child; the `finally:` block removes the
temporary script file on every path. -/
def test_functionality (fout : FuncOutcome) : Int × List ProcAction :=
  match fout with
  | .completed out => (scoreFromOutput out, [.spawnChild, .removeTempFile])
  | .timeout => (0, [.spawnChild, .removeTempFile])
  | .err => (0, [.spawnChild, .removeTempFile])

/-! ### Parse-tree model and `HandlerEvaluator._check_structure`

`_check_structure` re-parses the source and then only inspects, over the
walked tree: the `ImportFrom` nodes' `module` attributes, the `ClassDef`
nodes' `bases` (distinguishing `ast.Name` bases from every other
expression form) and the (sync or async) function definitions in each
class body, by name.  The model records exactly that data. -/

/-- A base-class expression in a `ClassDef`'s `bases` list: a bare name
(`ast.Name`), an attribute access such as `base.HotHandler`
(`ast.Attribute`), or any other expression form. -/
inductive PyBase
  | name (id : String)
  | attr (value : String) (field : String)
  | other
deriving DecidableEq

/-- `isinstance(base, ast.Name) and base.id == 'HotHandler'`. -/
def PyBase.isBareHotHandler : PyBase → Bool
  | .name id => id = "HotHandler"
  | _ => false

/-- An `ast.ClassDef`: its name, base expressions, and the names of the
`FunctionDef`/`AsyncFunctionDef` statements in its body (the checker
treats sync and async identically, so only names are recorded). -/
structure PyClassDef where
  name : String
  bases : List PyBase
  methodNames : List String
deriving DecidableEq

/-- The walked parse tree of a candidate, restricted to the data
`_check_structure` reads: the `module` of each `ImportFrom` node
(`none` for `from . import x`), and every `ClassDef`. -/
structure PyModule where
  importFroms : List (Option String)
  classes : List PyClassDef
deriving DecidableEq

/-- `imp.module and 'zephyr.handlers.base' in imp.module` over all
`ImportFrom` nodes. -/
def hasBaseImport (m : PyModule) : Bool :=
  m.importFroms.any fun imp =>
    match imp with
    | some s => containsSub "zephyr.handlers.base".data s.data
    | none => false

/-- The `handler_classes` filter: classes with an `ast.Name` base whose
id is literally `HotHandler`. -/
def handlerClasses (m : PyModule) : List PyClassDef :=
  m.classes.filter fun c => c.bases.any PyBase.isBareHotHandler

/-- `HandlerEvaluator._check_structure` on a tree that parsed: +5 for the
base import, +5 if `handler_classes` is nonempty, +10 if the first class
in `handler_classes` has a method literally named `process`. -/
def check_structure (m : PyModule) : Nat :=
  (if hasBaseImport m then 5 else 0) +
  (if (handlerClasses m).isEmpty then 0 else 5) +
  (match (handlerClasses m).head? with
   | some hc => if hc.methodNames.contains "process" then 10 else 0
   | none => 0)

/-! ### The evaluation pipeline (`HandlerEvaluator.evaluate`)

`evaluate` runs syntax → structure → load → functionality with the
short-circuits of the source: parse failure returns 0 immediately; a
load failure returns `sum(scores)` with `loads = functionality = 0`,
i.e. `10 + structure`; otherwise the total is
`10 + structure + 20 + functionality`.  The parse outcome, the sandbox
load result and the functional child's outcome are the effectful inputs. -/

/-- The total score together with which subprocess-spawning phases ran
(`_check_loads` and `_test_functionality` each spawn a child). -/
structure EvalResult where
  total : Int
  ranLoads : Bool
  ranFunctional : Bool
deriving DecidableEq

/-- `HandlerEvaluator.evaluate`: `parsed = none` models a source text on
which `ast.parse` raises `SyntaxError`. -/
def evaluate (parsed : Option PyModule) (loads : Bool) (fout : FuncOutcome) :
    EvalResult :=
  match parsed with
  | none => ⟨0, false, false⟩
  | some m =>
    let partial_ : Int := 10 + (check_structure m : Int)
    if loads then
      ⟨partial_ + 20 + (test_functionality fout).1, true, true⟩
    else
      ⟨partial_, true, false⟩

/-! ### Functional test-case lookup and generated test script

`_get_test_cases` enumerates test cases only for levels 1 and 2 (every
other level falls through to `return []`).  `_create_test_script` builds
a standalone script that loads the candidate, awards +10 for a
non-raising `activate` hook, and — only when `level == 1` — drives an
echo message and awards +20 for the expected response type and +20 for
an `ECHO:` payload, finally printing `SCORE: <n>`.  The test-case list
is interpolated nowhere in the template. -/

/-- Outcome of one attempt body: the evaluated score of the generated
candidate, or the message of the exception raised during the attempt. -/
inductive GenOutcome
  | success (score : Int)
  | failure (msg : String)
deriving DecidableEq

/-- One element of the run's `attempts` list (the 1-based index, the
score, and the error message when the attempt raised). -/
structure AttemptRecord where
  attempt : Nat
  score : Int
  error : Option String
deriving DecidableEq

/-- The `for attempt in range(max_retries)` loop: `i` is the 0-based
index of the next attempt, `fuel` the remaining iterations, `best`/
`bestH` the current `best_score` and `best_handler` (as the 1-based
attempt index whose file is the best).  Returns the attempts made and
the final `best_score` / `best_handler`. -/
def runAttempts (gen : Nat → GenOutcome) :
    Nat → Nat → Int → Option Nat → List AttemptRecord × Int × Option Nat
  | _, 0, best, bestH => ([], best, bestH)
  | i, fuel + 1, best, bestH =>
    match gen i with
    | .failure msg =>
      let rec_ := runAttempts gen (i + 1) fuel best bestH
      (⟨i + 1, 0, some msg⟩ :: rec_.1, rec_.2)
    | .success score =>
      let best' := if score > best then score else best
      let bestH' := if score > best then some (i + 1) else bestH
      if score ≥ 70 then ([⟨i + 1, score, none⟩], best', bestH')
      else
        let rec_ := runAttempts gen (i + 1) fuel best' bestH'
        (⟨i + 1, score, none⟩ :: rec_.1, rec_.2)

/-- The result record built at the end of `run_challenge`: `passed` is
`best_score >= 70`, and `finalized` records whether the
`if best_handler:` copy of the best attempt's source to the canonical
`handler.py` path was performed. -/
structure RunResult where
  attempts : List AttemptRecord
  best_score : Int
  best_handler : Option Nat
  passed : Bool
  finalized : Bool
deriving DecidableEq

/-- `ChallengeRunner.run_challenge` for one (model, challenge) pair:
`best_score = 0`, `best_handler = None`, run the retry loop, then copy
the best handler iff `best_handler` is set. -/
def run_challenge (gen : Nat → GenOutcome) (max_retries : Nat) : RunResult :=
  let out := runAttempts gen 0 max_retries 0 none
  { attempts := out.1
    best_score := out.2.1
    best_handler := out.2.2
    passed := out.2.1 ≥ 70
    finalized := out.2.2.isSome }

/-! ### Concrete inputs used to instantiate the theorems below -/

/-- A run whose three attempts would score 40, 72 and 55. -/
def genScores40_72_55 : Nat → GenOutcome :=
  fun n => if n = 0 then .success 40 else if n = 1 then .success 72 else .success 55

/-- A run whose first attempt raises during generation and whose second
scores 80. -/
def genFailThenPass : Nat → GenOutcome :=
  fun n => if n = 0 then .failure "boom" else .success 80

/-- A parse tree whose only class inherits from the qualified
`base.HotHandler` (an `ast.Attribute`, not an `ast.Name`) and does have
a `process` method. -/
def moduleQualifiedBase : PyModule :=
  ⟨[], [⟨"EchoHandler", [.attr "base" "HotHandler"], ["process"]⟩]⟩

/-! ## Bounds on the phase scores -/

/-- `_check_structure` awards at most 5 + 5 + 10 = 20 points. -/
theorem check_structure_le (m : PyModule) : check_structure m ≤ 20 := by
  rcases h : (handlerClasses m).head? with _ | hc <;>
    simp only [check_structure, h] <;> split_ifs <;> omega

/-- The parsed functional score is capped at 50 by `min(score, 50)`. -/
theorem scoreFromOutput_le (out : String) : scoreFromOutput out ≤ 50 := by
  unfold scoreFromOutput
  rcases extractScore out with _ | n
  · norm_num
  · exact min_le_right n 50

/-- `_test_functionality` never returns more than 50. -/
theorem test_functionality_le (fout : FuncOutcome) :
    (test_functionality fout).1 ≤ 50 := by
  cases fout with
  | completed out => exact scoreFromOutput_le out
  | timeout => norm_num [test_functionality]
  | err => norm_num [test_functionality]

/-! ## Properties of the stdout parse

The parse of the functional child's stdout picks the first line
containing `SCORE:`.  The lemmas here let us reason about a stdout of
the form "candidate prints, then the template's own `SCORE:` line":
when no line of the prefix contains `SCORE:`, the parsed score is that
of the suffix alone. -/

/-- With at least one iteration of budget left, the loop records at
least one attempt. -/
theorem runAttempts_length_pos (gen : Nat → GenOutcome) (i fuel : Nat) (best : Int)
    (bestH : Option Nat) (hfuel : 0 < fuel) :
    0 < (runAttempts gen i fuel best bestH).1.length := by
  match fuel, hfuel with
  | fuel + 1, _ =>
    cases hg : gen i with
    | failure msg => simp [runAttempts, hg]
    | success s =>
      by_cases hs : s ≥ 70 <;> simp [runAttempts, hg, hs]

/-- As long as no attempt reaches the pass threshold, the loop runs each
iteration in turn: after `k` non-passing attempts the remaining run is
the same loop started `k` iterations later (with some below-threshold
best so far), and the first `k` records stay in place. -/
theorem runAttempts_drop (gen : Nat → GenOutcome) (k : Nat) :
    ∀ (i fuel : Nat) (best : Int) (bestH : Option Nat),
    k ≤ fuel → best < 70 →
    (∀ j, j < k → ∀ t, gen (i + j) = .success t → t < 70) →
    ∃ best' bestH', best' < 70 ∧
      (runAttempts gen i fuel best bestH).1.length
        = k + (runAttempts gen (i + k) (fuel - k) best' bestH').1.length ∧
      (runAttempts gen i fuel best bestH).1.drop k
        = (runAttempts gen (i + k) (fuel - k) best' bestH').1 ∧
      (runAttempts gen i fuel best bestH).2
        = (runAttempts gen (i + k) (fuel - k) best' bestH').2 := by
  induction k with
  | zero =>
    intro i fuel best bestH _ hbest _
    exact ⟨best, bestH, hbest, by simp, by simp, rfl⟩
  | succ k ih =>
    intro i fuel best bestH hk hbest hprev
    match fuel, hk with
    | fuel + 1, hk =>
      have hk' : k ≤ fuel := by omega
      have hidx : i + (k + 1) = (i + 1) + k := by omega
      have hfuel : fuel + 1 - (k + 1) = fuel - k := by omega
      cases hg : gen i with
      | failure msg =>
        have hprev' : ∀ j, j < k → ∀ t, gen (i + 1 + j) = .success t → t < 70 := by
          intro j hj t ht
          exact hprev (j + 1) (by omega) t (by rwa [show i + (j + 1) = i + 1 + j by omega])
        obtain ⟨best', bestH', hb, hlen, hdrop, hsnd⟩ :=
          ih (i + 1) fuel best bestH hk' hbest hprev'
        refine ⟨best', bestH', hb, ?_, ?_, ?_⟩ <;>
          simp only [runAttempts, hg, hidx, hfuel, List.length_cons, List.drop_succ_cons]
        · omega
        · exact hdrop
        · exact hsnd
      | success s =>
        have hs : s < 70 := hprev 0 (by omega) s (by rwa [show i + 0 = i by omega])
        have hns : ¬ s ≥ 70 := by omega
        have hb' : (if s > best then s else best) < 70 := by split <;> omega
        have hprev' : ∀ j, j < k → ∀ t, gen (i + 1 + j) = .success t → t < 70 := by
          intro j hj t ht
          exact hprev (j + 1) (by omega) t (by rwa [show i + (j + 1) = i + 1 + j by omega])
        obtain ⟨best', bestH', hb, hlen, hdrop, hsnd⟩ :=
          ih (i + 1) fuel (if s > best then s else best)
            (if s > best then some (i + 1) else bestH) hk' hb' hprev'
        refine ⟨best', bestH', hb, ?_, ?_, ?_⟩ <;>
          simp only [runAttempts, hg, hns, if_false, hidx, hfuel, List.length_cons,
            List.drop_succ_cons]
        · omega
        · exact hdrop
        · exact hsnd

/-- `best_handler` ends up set exactly when, beyond any handler set on
entry, some recorded attempt succeeded with a score strictly above the
`best_score` on entry (the update guard is `if score > best_score`). -/
theorem runAttempts_bestH_isSome (gen : Nat → GenOutcome) (fuel : Nat) :
    ∀ (i : Nat) (best : Int) (bestH : Option Nat),
    ((runAttempts gen i fuel best bestH).2.2.isSome = true ↔
      bestH.isSome = true ∨
        ∃ a ∈ (runAttempts gen i fuel best bestH).1, a.error = none ∧ best < a.score) := by
  induction fuel with
  | zero => intro i best bestH; simp [runAttempts]
  | succ fuel ih =>
    intro i best bestH
    cases hg : gen i with
    | failure msg =>
      simp only [runAttempts, hg, List.mem_cons]
      rw [ih]
      constructor
      · rintro (h | ⟨a, ha, he, hs⟩)
        · exact Or.inl h
        · exact Or.inr ⟨a, Or.inr ha, he, hs⟩
      · rintro (h | ⟨a, (rfl | ha), he, hs⟩)
        · exact Or.inl h
        · simp at he
        · exact Or.inr ⟨a, ha, he, hs⟩
    | success s =>
      by_cases hgt : s > best
      · by_cases hge : s ≥ 70
        · simp only [runAttempts, hg, hgt, if_true, hge, if_pos]
          simp only [Option.isSome_some, true_iff]
          exact Or.inr ⟨⟨i + 1, s, none⟩, by simp, rfl, hgt⟩
        · simp only [runAttempts, hg, hgt, if_true, hge, if_false]
          rw [ih]
          simp only [Option.isSome_some, true_or, true_iff]
          exact Or.inr ⟨⟨i + 1, s, none⟩, by simp, rfl, hgt⟩
      · have hle : ¬ best < s := by omega
        by_cases hge : s ≥ 70
        · simp only [runAttempts, hg, hgt, if_false, hge, if_pos]
          constructor
          · exact Or.inl
          · rintro (h | ⟨a, ha, he, hs⟩)
            · exact h
            · simp at ha; subst ha; simp at hs; omega
        · simp only [runAttempts, hg, hgt, if_false, hge, if_false]
          rw [ih]
          constructor
          · rintro (h | ⟨a, ha, he, hs⟩)
            · exact Or.inl h
            · exact Or.inr ⟨a, List.mem_cons_of_mem _ ha, he, hs⟩
          · rintro (h | ⟨a, ha, he, hs⟩)
            · exact Or.inl h
            · rcases List.mem_cons.mp ha with rfl | ha'
              · simp at hs; omega
              · exact Or.inr ⟨a, ha', he, hs⟩

/-! ## The claims -/

/-- C1 (counterexample): the total is not bounded below.  A candidate
that parses, loads, and whose functional child prints `SCORE: -200`
(candidate code runs inside the test script and may print anything)
is scored `10 + 0 + 20 + (-200) = -170`, violating `0 ≤ total`:
`min(score, 50)` caps only from above. -/
theorem C1_total_not_bounded_below_cex :
    (evaluate (some ⟨[], []⟩) true (.completed "SCORE: -200")).total = -170 ∧
      ¬ (0 ≤ (evaluate (some ⟨[], []⟩) true (.completed "SCORE: -200")).total) := by
  decide

/-- C1 (amended): for every phase-outcome combination the total is at
most 100, and it is also nonnegative whenever the functional phase's
returned score is nonnegative (the functional phase is the only one
that can go negative, via an un-clamped negative `SCORE:` report). -/
theorem C1_total_bounds (parsed : Option PyModule) (loads : Bool) (fout : FuncOutcome) :
    (evaluate parsed loads fout).total ≤ 100 ∧
      (0 ≤ (test_functionality fout).1 → 0 ≤ (evaluate parsed loads fout).total) := by
  rcases parsed with _ | m
  · simp [evaluate]
  · have hs := check_structure_le m
    have hf := test_functionality_le fout
    cases loads <;> simp only [evaluate] <;> constructor <;> intros <;> push_cast <;> omega

/-- C2 (counterexample): a test script that prints `SCORE: -5` is
recorded as -5, outside the claimed interval [0, 50]: the code computes
`min(score, 50)` and never clamps from below. -/
theorem C2_negative_score_cex :
    (test_functionality (.completed "SCORE: -5")).1 = -5 ∧
      (test_functionality (.completed "SCORE: -5")).1 < 0 := by
  decide

/-- C2 (amended): for every integer n the script reports on its
`SCORE:` line, the recorded functional score is `min n 50`: it never
exceeds 50, and it lies in [0, 50] whenever n is nonnegative (so
`SCORE: 9999` is recorded as 50), but a negative n passes through. -/
theorem C2_functional_cap (out : String) (n : Int)
    (h : extractScore out = some n) :
    (test_functionality (.completed out)).1 = min n 50 ∧
      (test_functionality (.completed out)).1 ≤ 50 ∧
      (0 ≤ n → 0 ≤ (test_functionality (.completed out)).1) := by
  simp only [test_functionality, scoreFromOutput, h]
  exact ⟨trivial, min_le_right n 50, fun hn => le_min hn (by norm_num)⟩

/-- C2 (witness): a child whose stdout is `SCORE: 9999` is recorded as
exactly 50. -/
theorem C2_functional_cap_witness :
    (test_functionality (.completed "SCORE: 9999")).1 = 50 := by
  have h := C2_functional_cap "SCORE: 9999" 9999 (by decide)
  rw [h.1]
  decide

/-- C3: the retry loop stops at the first attempt whose score reaches
the pass threshold 70: if attempt i (0-based) is the first to reach 70
and is within budget, exactly i+1 attempts are made, and the run
records that score as `best_score` with `passed = true`. -/
theorem C3_stops_at_first_pass (gen : Nat → GenOutcome) (max_retries i : Nat) (s : Int)
    (hi : i < max_retries) (hgen : gen i = .success s) (hs : 70 ≤ s)
    (hprev : ∀ j, j < i → ∀ t, gen j = .success t → t < 70) :
    (run_challenge gen max_retries).attempts.length = i + 1 ∧
      (run_challenge gen max_retries).best_score = s ∧
      (run_challenge gen max_retries).passed = true := by
  obtain ⟨best', bestH', hb, hlen, hdrop, hsnd⟩ :=
    runAttempts_drop gen i 0 max_retries 0 none (by omega) (by omega)
      (by intro j hj t ht; exact hprev j hj t (by rwa [show 0 + j = j by omega] at ht))
  rw [show 0 + i = i by omega] at hlen hdrop hsnd
  have hfuel : max_retries - i = (max_retries - i - 1) + 1 := by omega
  have hgt : s > best' := by omega
  have hge : s ≥ 70 := hs
  have hstep : runAttempts gen i (max_retries - i) best' bestH'
      = ([⟨i + 1, s, none⟩], s, some (i + 1)) := by
    rw [hfuel]
    simp [runAttempts, hgen, hgt, hge]
  constructor
  · simp [run_challenge, hlen, hstep]
  constructor
  · simp [run_challenge, hsnd, hstep]
  · simp [run_challenge, hsnd, hstep]; omega

/-- C3 (witness): with attempts scoring 40, 72, 55 and budget 3, the
run makes exactly two attempts (the third is never generated), records
`best_score = 72` and `passed = true`. -/
theorem C3_stops_at_first_pass_witness :
    (run_challenge genScores40_72_55 3).attempts.length = 2 ∧
      (run_challenge genScores40_72_55 3).best_score = 72 ∧
      (run_challenge genScores40_72_55 3).passed = true := by
  refine C3_stops_at_first_pass genScores40_72_55 3 1 72 (by omega) (by decide) (by omega) ?_
  intro j hj t ht
  interval_cases j
  rw [show genScores40_72_55 0 = .success 40 from rfl] at ht
  injection ht with h
  omega

/-- C4: a candidate whose source fails to parse scores 0 and neither
the sandbox-load subprocess nor the functional-test subprocess is
spawned (`return 0` right after the syntax check fails). -/
theorem C4_syntax_failure_scores_zero (loads : Bool) (fout : FuncOutcome) :
    evaluate none loads fout = ⟨0, false, false⟩ :=
  rfl

/-- C5: a candidate that parses but fails the sandbox load scores
exactly `10 + structure_score` — the functional phase never runs, and
neither the 20-point load bonus nor any functional points are added,
whatever the functional child would have produced. -/
theorem C5_load_failure_partial_score (m : PyModule) (fout : FuncOutcome) :
    evaluate (some m) false fout = ⟨10 + (check_structure m : Int), true, false⟩ :=
  rfl

/-- C6: on a functional-test timeout the phase returns 0, but the
parent's actions on that path are only the spawn and the temp-file
removal: no `kill()`/`terminate()` of the child ever happens, so the
child is abandoned, not reclaimed (contrary to the claim and §5 of the
spec, which require forcible reclamation). -/
theorem C6_timeout_returns_zero_no_kill :
    (test_functionality .timeout).1 = 0 ∧
      (test_functionality .timeout).2 = [.spawnChild, .removeTempFile] ∧
      ProcAction.killChild ∉ (test_functionality .timeout).2 := by
  decide

/-- C8 (counterexample): a run of three attempts that all evaluate to
score 0 produces candidates (no attempt errors), yet the finalize copy
is skipped: `best_handler` is set only on `score > best_score` with
`best_score` initialised to 0, so an all-zero run never sets it.  The
claim that the copy is skipped only when every attempt errored is
false. -/
theorem C8_zero_scores_skip_finalize_cex :
    (run_challenge (fun _ => .success 0) 3).finalized = false ∧
      ((run_challenge (fun _ => .success 0) 3).attempts.all
        (fun a => a.error = none)) = true ∧
      (run_challenge (fun _ => .success 0) 3).attempts.length = 3 := by
  decide

/-- C8 (amended): the finalize copy happens exactly when some attempt
produced a candidate (no error) with a strictly positive score; it is
skipped both when every attempt errored and when every produced
candidate scored 0. -/
theorem C8_finalize_iff_positive_score (gen : Nat → GenOutcome) (max_retries : Nat) :
    (run_challenge gen max_retries).finalized = true ↔
      ∃ a ∈ (run_challenge gen max_retries).attempts, a.error = none ∧ 0 < a.score := by
  have h := runAttempts_bestH_isSome gen max_retries 0 0 none
  simp only [Option.isSome_none, Bool.false_eq_true, false_or] at h
  exact h

/-- C9: an attempt whose generation (or evaluation) raises is caught
and recorded as a zero-score attempt carrying the error message, and
the loop proceeds: if budget remains after the failed attempt, at least
one further attempt is made — no failure aborts the run. -/
theorem C9_generation_failure_continues (gen : Nat → GenOutcome) (max_retries i : Nat)
    (msg : String)
    (hi : i < max_retries) (hgen : gen i = .failure msg)
    (hprev : ∀ j, j < i → ∀ t, gen j = .success t → t < 70) :
    (run_challenge gen max_retries).attempts[i]? = some ⟨i + 1, 0, some msg⟩ ∧
      (i + 1 < max_retries → (run_challenge gen max_retries).attempts.length ≥ i + 2) := by
  obtain ⟨best', bestH', hb, hlen, hdrop, hsnd⟩ :=
    runAttempts_drop gen i 0 max_retries 0 none (by omega) (by omega)
      (by intro j hj t ht; exact hprev j hj t (by rwa [show 0 + j = j by omega] at ht))
  rw [show 0 + i = i by omega] at hlen hdrop hsnd
  have hfuel : max_retries - i = (max_retries - i - 1) + 1 := by omega
  have hstep : runAttempts gen i (max_retries - i) best' bestH'
      = (⟨i + 1, 0, some msg⟩ ::
          (runAttempts gen (i + 1) (max_retries - i - 1) best' bestH').1,
          (runAttempts gen (i + 1) (max_retries - i - 1) best' bestH').2) := by
    rw [hfuel]
    simp [runAttempts, hgen]
  constructor
  · have hq := List.getElem?_drop (runAttempts gen 0 max_retries 0 none).1 i 0
    rw [hdrop, hstep] at hq
    simp only [List.getElem?_cons_zero, Nat.add_zero] at hq
    simp only [run_challenge]
    exact hq.symm
  · intro hlt
    have hpos : 0 < (runAttempts gen (i + 1) (max_retries - i - 1) best' bestH').1.length :=
      runAttempts_length_pos gen (i + 1) (max_retries - i - 1) best' bestH' (by omega)
    simp only [run_challenge] at hlen ⊢
    rw [hstep] at hlen
    simp at hlen
    omega

/-- C9 (witness): a run whose first attempt raises records
`(attempt 1, score 0, error "boom")` and still makes a second attempt. -/
theorem C9_generation_failure_witness :
    (run_challenge genFailThenPass 3).attempts[0]? = some ⟨1, 0, some "boom"⟩ ∧
      (0 + 1 < 3 → (run_challenge genFailThenPass 3).attempts.length ≥ 0 + 2) :=
  C9_generation_failure_continues genFailThenPass 3 0 "boom" (by omega) (by decide)
    (by intro j hj t ht; omega)

/-- C10: the structure checker's class probes see only bare-name
(`ast.Name`) bases: in a parse tree where no class lists the bare name
`HotHandler` among its bases — e.g. every inheritance goes through a
qualified `base.HotHandler` attribute — `handler_classes` is empty, so
neither the +5 base-class points nor the +10 process-method points can
be awarded, and the structure score is the import probe's alone. -/
theorem C10_bare_name_base_only (m : PyModule)
    (h : ∀ c ∈ m.classes, ∀ b ∈ c.bases, b.isBareHotHandler = false) :
    handlerClasses m = [] ∧
      check_structure m = if hasBaseImport m then 5 else 0 := by
  have hempty : handlerClasses m = [] := by
    unfold handlerClasses
    rw [List.filter_eq_nil_iff]
    intro c hc
    rw [Bool.not_eq_true, List.any_eq_false]
    intro b hb
    simp [h c hc b hb]
  refine ⟨hempty, ?_⟩
  simp [check_structure, hempty]

/-- C10 (witness): a class inheriting via `base.HotHandler` and having
a `process` method still scores 0 structure points without the import. -/
theorem C10_bare_name_base_witness :
    handlerClasses moduleQualifiedBase = [] ∧
      check_structure moduleQualifiedBase =
        if hasBaseImport moduleQualifiedBase then 5 else 0 :=
  C10_bare_name_base_only moduleQualifiedBase (by decide)

end Blossom
